import Mathlib

/-!
Verification of the DSS geospatial-temporal entity store (CockroachDB backend).

This file gives a shallow embedding of the Operational Intent repository
(`pkg/scd/store/cockroach/operational_intents.go`) and of the RID store
bootstrapper and transaction helper (the second source file of the
repository), and settles the frozen claims about them.

Modelling conventions:
* the `scd_operations` table is a list of rows (`OperationalIntentRow`),
  each row carrying the twelve columns of `operationFieldsWithIndices`
  in source order;
* Go `int64` values are `Int`, `s2.CellID` (a `uint64`) is `Nat`, with the
  two Go conversions `int64(cell)` and `s2.CellID(uint64(cell))` made
  explicit (`int64OfCell`, `cellOfInt64`);
* timestamps (`time.Time` / `TIMESTAMPTZ`) and altitudes (`float32`) are
  modelled as `Int`: only their ordering matters to the claims;
* nullable columns and nil pointers are `Option`;
* fallible operations return `Except`, and stateful operations pass the
  table explicitly.
-/

namespace DSS

/-- The Go conversion `int64(cell)` applied to a `uint64` cell id
(two's-complement reinterpretation), used on the write path of
`UpsertOperationalIntent` and `searchOperationalIntents`. -/
def int64OfCell (c : Nat) : Int :=
  if c < 2 ^ 63 then (c : Int) else (c : Int) - 2 ^ 64

/-- The Go conversion `s2.CellID(uint64(cell))` applied to an `int64`
(reduction mod 2^64), used on the read path of
`populateOperationalIntentCells`. -/
def cellOfInt64 (i : Int) : Nat :=
  (i % (2 ^ 64 : Int)).toNat

/-- Modelled from the spec: `scdmodels.OVN` and `NewOVNFromTime`
(pkg/scd/models, not under src/). The spec requires the token to be a
deterministic function of the last-modification timestamp and the entity
identity, collision-free within one store, so it is modelled as the
injective pairing of the two inputs; its one-way (hashing) aspect is not
modelled. -/
structure OVN where
  fromTime : Int
  fromID : String
deriving DecidableEq

/-- Modelled from the spec: derivation of the opaque version token from
`updated_at` and `id`, as invoked in `fetchOperationalIntents`. -/
def NewOVNFromTime (updatedAt : Int) (id : String) : OVN :=
  { fromTime := updatedAt, fromID := id }

/-- Modelled from the spec: `validate(token, current_updated_at, id)` of the
Version Token Codec (section 4.2): the presented token matches exactly when
it equals the token derived from the current row; a token that fails to
decode simply does not match. -/
def validateOVN (t : OVN) (updatedAt : Int) (id : String) : Bool :=
  decide (t = NewOVNFromTime updatedAt id)

/-- A row of the `scd_operations` table; fields in the column order fixed by
`operationFieldsWithIndices` in the source. -/
structure OperationalIntentRow where
  id : String
  owner : String
  version : Int
  url : String
  altitude_lower : Option Int
  altitude_upper : Option Int
  starts_at : Option Int
  ends_at : Option Int
  subscription_id : Option String
  updated_at : Int
  state : String
  cells : List Int
deriving DecidableEq

/-- The in-memory entity `scdmodels.OperationalIntent` as populated by the
fetch path: all scanned columns, plus the derived `ovn` and the `cells`
cell union. The row's `updated_at` is not kept on the entity; it only
feeds the OVN derivation, as in the source. -/
structure OperationalIntent where
  id : String
  manager : String
  version : Int
  ussBaseURL : String
  altitudeLower : Option Int
  altitudeUpper : Option Int
  startTime : Option Int
  endTime : Option Int
  subscriptionID : Option String
  state : String
  ovn : OVN
  cells : List Nat
deriving DecidableEq

/-- Modelled from the spec: `OperationalIntent.SetCells` (pkg/scd/models,
not under src/) converts each scanned `int64` cell back to an s2 cell id,
the same element-wise conversion `populateOperationalIntentCells` applies. -/
def setCells (cids : List Int) : List Nat :=
  cids.map cellOfInt64

/-- One iteration of the row-scanning loop of `fetchOperationalIntents`:
scan the twelve columns into the entity, derive
`OVN = NewOVNFromTime(updatedAt, id)`, and set the cells from the scanned
array. -/
def scanRow (r : OperationalIntentRow) : OperationalIntent :=
  { id := r.id, manager := r.owner, version := r.version,
    ussBaseURL := r.url,
    altitudeLower := r.altitude_lower, altitudeUpper := r.altitude_upper,
    startTime := r.starts_at, endTime := r.ends_at,
    subscriptionID := r.subscription_id, state := r.state,
    ovn := NewOVNFromTime r.updated_at r.id,
    cells := setCells r.cells }

/-- `populateOperationalIntentCells`: the secondary query
`SELECT unnest(cells) FROM scd_operations WHERE id = $1`, each scanned
`int64` converted by `s2.CellID(uint64(cell))`. Unnesting concatenates the
cell arrays of every row whose id matches. -/
def populateOperationalIntentCells (tbl : List OperationalIntentRow) (id : String) :
    List Nat :=
  ((tbl.filter (fun r => r.id == id)).flatMap (fun r => r.cells)).map cellOfInt64

/-- `fetchOperationalIntents`: scan every selected row, then re-populate the
cells of each resulting entity from the secondary unnest query against the
same table. `tbl` is the table state the populate queries run against,
`selected` is the primary query result. -/
def fetchOperationalIntents (tbl selected : List OperationalIntentRow) :
    List OperationalIntent :=
  selected.map (fun r => { scanRow r with cells := populateOperationalIntentCells tbl r.id })

/-- `fetchOperationalIntent`: errors when the query returned more than one
row, returns `none` (and no error) for zero rows, and the single entity
otherwise. -/
def fetchOperationalIntent (tbl selected : List OperationalIntentRow) :
    Except String (Option OperationalIntent) :=
  let operations := fetchOperationalIntents tbl selected
  if 1 < operations.length then
    Except.error "Query returned more than one Operation when only 0 or 1 was expected"
  else
    match operations with
    | [] => Except.ok none
    | o :: _ => Except.ok (some o)

/-- The rows selected by `SELECT ... FROM scd_operations WHERE id = $1`. -/
def rowsMatchingID (tbl : List OperationalIntentRow) (id : String) :
    List OperationalIntentRow :=
  tbl.filter (fun r => r.id == id)

/-- `fetchOperationByID`: the id-keyed single-row fetch. -/
def fetchOperationByID (tbl : List OperationalIntentRow) (id : String) :
    Except String (Option OperationalIntent) :=
  fetchOperationalIntent tbl (rowsMatchingID tbl id)

/-- `GetOperationalIntent`: delegates to `fetchOperationByID`. -/
def GetOperationalIntent (tbl : List OperationalIntentRow) (id : String) :
    Except String (Option OperationalIntent) :=
  fetchOperationByID tbl id

/-- The error message of `DeleteOperationalIntent` when zero rows were
affected. -/
def deleteNotFoundMsg : String := "Could not delete Operation that does not exist"

/-- `DeleteOperationalIntent`: run `DELETE FROM scd_operations WHERE id = $1`,
then report an error when `RowsAffected` is zero. The first component is
the table after the DELETE statement, the second the reported error. -/
def DeleteOperationalIntent (tbl : List OperationalIntentRow) (id : String) :
    List OperationalIntentRow × Option String :=
  let rowsAffected := (tbl.filter (fun r => r.id == id)).length
  let tbl2 := tbl.filter (fun r => !(r.id == id))
  if rowsAffected == 0 then (tbl2, some deleteNotFoundMsg) else (tbl2, none)

/-- The row written by the UPSERT statement of `UpsertOperationalIntent`:
columns `$1 .. $9, transaction_timestamp(), $10, $11` in the order of
`operationFieldsWithIndices` — every column comes from the input entity
except `updated_at`, which is the transaction timestamp of the storage
engine. -/
def upsertNewRow (operation : OperationalIntent) (txTimestamp : Int) :
    OperationalIntentRow :=
  { id := operation.id, owner := operation.manager, version := operation.version,
    url := operation.ussBaseURL, altitude_lower := operation.altitudeLower,
    altitude_upper := operation.altitudeUpper, starts_at := operation.startTime,
    ends_at := operation.endTime, subscription_id := operation.subscriptionID,
    updated_at := txTimestamp, state := operation.state,
    cells := operation.cells.map int64OfCell }

/-- SQL UPSERT keyed on `id`: replace every row with the same id, or insert
at the end if none exists. -/
def upsertRowByID (tbl : List OperationalIntentRow) (nr : OperationalIntentRow) :
    List OperationalIntentRow :=
  if tbl.any (fun r => r.id == nr.id) then
    tbl.map (fun r => if r.id == nr.id then nr else r)
  else
    tbl ++ [nr]

/-- `UpsertOperationalIntent`: write the row (with server-side
`transaction_timestamp()` as `updated_at`), feed the RETURNING row through
the fetch pipeline, then merge the input cells back onto the returned
entity (`operation.Cells = cells` in the source). -/
def UpsertOperationalIntent (tbl : List OperationalIntentRow)
    (operation : OperationalIntent) (txTimestamp : Int) :
    Except String (List OperationalIntentRow × OperationalIntent) :=
  let nr := upsertNewRow operation txTimestamp
  let tbl2 := upsertRowByID tbl nr
  match fetchOperationalIntent tbl2 [nr] with
  | Except.error e => Except.error e
  | Except.ok none => Except.error "RETURNING produced no row"
  | Except.ok (some fetched) => Except.ok (tbl2, { fetched with cells := operation.cells })

/-- Modelled from the spec: a spatial footprint is external geometry
(`dssmodels.Geometry`, pkg/models, not under src/); per spec section 4.1
its covering is a pure, deterministic function of the footprint, so a
footprint is represented in this embedding by its covering outcome. -/
structure Footprint where
  coveringResult : Except String (List Nat)

/-- `Footprint.CalculateCovering` as invoked by `searchOperationalIntents`. -/
def calculateCovering (f : Footprint) : Except String (List Nat) :=
  f.coveringResult

/-- `dssmodels.Volume3D`: footprint plus optional altitude bounds (nil
pointers are `none`). -/
structure Volume3D where
  footprint : Option Footprint
  altitudeLo : Option Int
  altitudeHi : Option Int

/-- `dssmodels.Volume4D`: spatial volume plus optional time window. -/
structure Volume4D where
  spatialVolume : Option Volume3D
  startTime : Option Int
  endTime : Option Int

/-- The error cases of `searchOperationalIntents`; each carries the
`dsserr.BadRequest` code in the source, i.e. every one is an InvalidInput
rejection. -/
inductive SearchError
  | missingFootprint
  | coveringFailure (msg : String)
  | missingCellIDs
deriving DecidableEq

/-- Every `SearchError` is raised with `dsserr.BadRequest` in the source. -/
def SearchError.isInvalidInput : SearchError → Bool
  | _ => true

/-- SQL `COALESCE(a >= b, true)`: the comparison is NULL (hence coalesced to
true) when either operand is NULL. -/
def coalesceGeTrue (a b : Option Int) : Bool :=
  match a, b with
  | some x, some y => decide (y ≤ x)
  | _, _ => true

/-- SQL `COALESCE(a <= b, true)`. -/
def coalesceLeTrue (a b : Option Int) : Bool :=
  match a, b with
  | some x, some y => decide (x ≤ y)
  | _, _ => true

/-- SQL array overlap `cells && $1`: the two arrays share an element. -/
def cellsOverlap (cells cids : List Int) : Bool :=
  cells.any (fun c => cids.contains c)

/-- The WHERE clause of `operationsIntersectingVolumeQuery`, evaluated on
one row: `cells && $1 AND COALESCE(altitude_upper >= $2, true) AND
COALESCE(altitude_lower <= $3, true) AND COALESCE(ends_at >= $4, true) AND
COALESCE(starts_at <= $5, true)` with `$2 = AltitudeLo`, `$3 = AltitudeHi`,
`$4 = StartTime`, `$5 = EndTime`. -/
def searchRowMatches (cids : List Int) (aLo aHi ts te : Option Int)
    (r : OperationalIntentRow) : Bool :=
  cellsOverlap r.cells cids
    && coalesceGeTrue r.altitude_upper aLo
    && coalesceLeTrue r.altitude_lower aHi
    && coalesceGeTrue r.ends_at ts
    && coalesceLeTrue r.starts_at te

/-- `searchOperationalIntents`: reject a missing spatial volume or
footprint, a failed covering, and an empty covering (all BadRequest); then
select the rows matching the WHERE clause and run them through the fetch
pipeline. -/
def searchOperationalIntents (tbl : List OperationalIntentRow) (v4d : Volume4D) :
    Except SearchError (List OperationalIntent) :=
  match v4d.spatialVolume with
  | none => Except.error SearchError.missingFootprint
  | some sv =>
    match sv.footprint with
    | none => Except.error SearchError.missingFootprint
    | some fp =>
      match calculateCovering fp with
      | Except.error e => Except.error (SearchError.coveringFailure e)
      | Except.ok cells =>
        if cells.length == 0 then Except.error SearchError.missingCellIDs
        else
          let cids := cells.map int64OfCell
          Except.ok (fetchOperationalIntents tbl
            (tbl.filter (searchRowMatches cids sv.altitudeLo sv.altitudeHi
              v4d.startTime v4d.endTime)))

/-- `SearchOperationalIntents`: delegates to `searchOperationalIntents`. -/
def SearchOperationalIntents (tbl : List OperationalIntentRow) (v4d : Volume4D) :
    Except SearchError (List OperationalIntent) :=
  searchOperationalIntents tbl v4d

/-- Failure outcomes of the upsert-with-version-check path. -/
inductive UpsertFailure
  | versionConflict
  | storeFault (msg : String)
deriving DecidableEq

/-- Modelled from the spec: the upsert-with-version-check path of section
4.3 — the token validation lives in the application layer of this
repository, not under src/. When `expected_version_token` is supplied it
must validate against the OVN derived from the current stored row; a
supplied token with no stored row ("update of nonexistent") fails with
VersionConflict; on a pass (or with no token: the relaxed create path) the
plain `UpsertOperationalIntent` of the source runs. A failure leaves the
table unchanged (the transactional scope of section 4.5 rolls back). -/
def upsertWithVersionCheck (tbl : List OperationalIntentRow)
    (operation : OperationalIntent) (expectedVersionToken : Option OVN)
    (txTimestamp : Int) :
    List OperationalIntentRow × Except UpsertFailure OperationalIntent :=
  match expectedVersionToken with
  | none =>
    match UpsertOperationalIntent tbl operation txTimestamp with
    | Except.error e => (tbl, Except.error (UpsertFailure.storeFault e))
    | Except.ok (tbl2, ret) => (tbl2, Except.ok ret)
  | some t =>
    match tbl.find? (fun r => r.id == operation.id) with
    | none => (tbl, Except.error UpsertFailure.versionConflict)
    | some row =>
      if validateOVN t row.updated_at row.id then
        match UpsertOperationalIntent tbl operation txTimestamp with
        | Except.error e => (tbl, Except.error (UpsertFailure.storeFault e))
        | Except.ok (tbl2, ret) => (tbl2, Except.ok ret)
      else (tbl, Except.error UpsertFailure.versionConflict)

/-- The state of one backing-store transaction. -/
inductive TxStatus
  | active
  | committed
  | rolledBack
deriving DecidableEq

/-- `recoverRollbackRepanic` from the store source: `p := recover(); if p
is non-nil, roll the transaction back (a rollback failure is only logged)`.
The input is the value `recover()` returns inside the deferred call and the
transaction status on entry; the output is the status after the handler and
the panic value the handler re-raises. The source body contains no
`panic(p)` after the rollback, so the second component is always `none`:
the handler returns normally and the recovered panic stops with it. -/
def recoverRollbackRepanic (recovered : Option Int) (tx : TxStatus) :
    TxStatus × Option Int :=
  match recovered with
  | none => (tx, none)
  | some _ => (TxStatus.rolledBack, none)

/-- How the scoped function `fn` of a transactional scope terminates:
a normal return (with or without an error) or a runtime panic. -/
inductive FnOutcome
  | returns (err : Option String)
  | panics (p : Int)
deriving DecidableEq

/-- Modelled from the spec: the Transaction Coordinator (section 4.5) opens
a scope, defers `recoverRollbackRepanic`, and runs `fn`; a nil-error return
commits, a non-nil return rolls back, and on a panic Go runs the deferred
handler with `recover()` yielding the panic value — the panic propagates
past the scope exactly when the handler re-raises it. The result is the
final transaction status and the fault, if any, that reaches the caller. -/
def runInTxScope (fn : FnOutcome) : TxStatus × Option Int :=
  match fn with
  | FnOutcome.returns none => recoverRollbackRepanic none TxStatus.committed
  | FnOutcome.returns (some _) => recoverRollbackRepanic none TxStatus.rolledBack
  | FnOutcome.panics p => recoverRollbackRepanic (some p) TxStatus.active

/-- SQL three-valued boolean, for CHECK constraint evaluation. -/
inductive SqlBool
  | tt
  | ff
  | nn
deriving DecidableEq

/-- SQL three-valued AND. -/
def SqlBool.and3 : SqlBool → SqlBool → SqlBool
  | SqlBool.ff, _ => SqlBool.ff
  | _, SqlBool.ff => SqlBool.ff
  | SqlBool.tt, SqlBool.tt => SqlBool.tt
  | _, _ => SqlBool.nn

/-- SQL three-valued OR. -/
def SqlBool.or3 : SqlBool → SqlBool → SqlBool
  | SqlBool.tt, _ => SqlBool.tt
  | _, SqlBool.tt => SqlBool.tt
  | SqlBool.ff, SqlBool.ff => SqlBool.ff
  | _, _ => SqlBool.nn

/-- A CHECK constraint passes unless its expression evaluates to FALSE
(NULL passes). -/
def checkPasses : SqlBool → Bool
  | SqlBool.ff => false
  | _ => true

/-- SQL `a < b` over nullable operands. -/
def sqlLt (a b : Option Int) : SqlBool :=
  match a, b with
  | some x, some y => if x < y then SqlBool.tt else SqlBool.ff
  | _, _ => SqlBool.nn

/-- SQL `a > b` over nullable operands. -/
def sqlGt (a b : Option Int) : SqlBool :=
  match a, b with
  | some x, some y => if y < x then SqlBool.tt else SqlBool.ff
  | _, _ => SqlBool.nn

/-- SQL `a IS NULL`. -/
def sqlIsNull (a : Option Int) : SqlBool :=
  match a with
  | none => SqlBool.tt
  | some _ => SqlBool.ff

/-- SQL `a IS NOT NULL`. -/
def sqlIsNotNull (a : Option Int) : SqlBool :=
  match a with
  | none => SqlBool.ff
  | some _ => SqlBool.tt

/-- SQL `array_length(xs, 1)`: NULL for a NULL or empty array (CockroachDB
semantics), else the length. -/
def arrayLength (xs : Option (List Int)) : Option Int :=
  match xs with
  | none => none
  | some [] => none
  | some l => some (l.length : Int)

/-- The fields of a row that the CHECK constraints of the bootstrapped
tables read. -/
structure EntityRow where
  starts_at : Option Int
  ends_at : Option Int
  cells : Option (List Int)

/-- The `cells` CHECK of the `subscriptions` DDL:
`array_length(cells, 1) > 0 AND array_length(cells, 1) IS NOT NULL`. -/
def subscriptionsCellsCheck (r : EntityRow) : SqlBool :=
  SqlBool.and3 (sqlGt (arrayLength r.cells) (some 0))
    (sqlIsNotNull (arrayLength r.cells))

/-- The `cells` CHECK of the `identification_service_areas` DDL:
`array_length(cells, 1) IS NOT NULL`. -/
def isaCellsCheck (r : EntityRow) : SqlBool :=
  sqlIsNotNull (arrayLength r.cells)

/-- The table CHECK shared by both DDL statements:
`starts_at IS NULL OR ends_at IS NULL OR starts_at < ends_at`. -/
def timeOrderCheck (r : EntityRow) : SqlBool :=
  SqlBool.or3 (sqlIsNull r.starts_at)
    (SqlBool.or3 (sqlIsNull r.ends_at) (sqlLt r.starts_at r.ends_at))

/-- Column types occurring in the bootstrap DDL. -/
inductive ColType
  | uuid
  | str
  | int4
  | timestamptz
  | int64Array
deriving DecidableEq

/-- One column declaration of a CREATE TABLE statement. -/
structure Column where
  name : String
  ty : ColType
  primaryKey : Bool
  notNull : Bool
  hasDefault : Bool
deriving DecidableEq

/-- Positional column constructor, to keep the DDL transcription compact. -/
def col (n : String) (t : ColType) (pk nn dflt : Bool) : Column :=
  { name := n, ty := t, primaryKey := pk, notNull := nn, hasDefault := dflt }

/-- One CREATE TABLE statement: name, columns, plain and inverted secondary
indexes (name and indexed columns), and the CHECK constraints evaluated on
a row. -/
structure TableDef where
  name : String
  columns : List Column
  indexes : List (String × List String)
  invertedIndexes : List (String × List String)
  checks : List (EntityRow → SqlBool)

/-- The `subscriptions` CREATE TABLE of `Bootstrap`, column for column. -/
def subscriptionsTable : TableDef :=
  { name := "subscriptions",
    columns :=
      [col "id" ColType.uuid true false false,
       col "owner" ColType.str false true false,
       col "url" ColType.str false true false,
       col "notification_index" ColType.int4 false false true,
       col "starts_at" ColType.timestamptz false false false,
       col "ends_at" ColType.timestamptz false false false,
       col "updated_at" ColType.timestamptz false true false,
       col "cells" ColType.int64Array false true false],
    indexes :=
      [("owner_idx", ["owner"]), ("starts_at_idx", ["starts_at"]),
       ("ends_at_idx", ["ends_at"])],
    invertedIndexes := [("cells_idx", ["cells"])],
    checks := [subscriptionsCellsCheck, timeOrderCheck] }

/-- The `identification_service_areas` CREATE TABLE of `Bootstrap`. -/
def identificationServiceAreasTable : TableDef :=
  { name := "identification_service_areas",
    columns :=
      [col "id" ColType.uuid true false false,
       col "owner" ColType.str false true false,
       col "url" ColType.str false true false,
       col "starts_at" ColType.timestamptz false false false,
       col "ends_at" ColType.timestamptz false false false,
       col "updated_at" ColType.timestamptz false true false,
       col "cells" ColType.int64Array false true false],
    indexes :=
      [("owner_idx", ["owner"]), ("starts_at_idx", ["starts_at"]),
       ("ends_at_idx", ["ends_at"]), ("updated_at_idx", ["updated_at"])],
    invertedIndexes := [("cells_idx", ["cells"])],
    checks := [isaCellsCheck, timeOrderCheck] }

/-- CREATE TABLE IF NOT EXISTS: add the table unless one with the same name
is already present (never an error, never a duplicate). -/
def createTableIfNotExists (schema : List TableDef) (t : TableDef) :
    List TableDef :=
  if schema.any (fun u => u.name == t.name) then schema else schema ++ [t]

/-- The tables the `Bootstrap` query creates, in statement order. -/
def bootstrapTables : List TableDef :=
  [subscriptionsTable, identificationServiceAreasTable]

/-- `Bootstrap`: execute the two CREATE TABLE IF NOT EXISTS statements. -/
def Bootstrap (schema : List TableDef) : List TableDef :=
  List.foldl createTableIfNotExists schema bootstrapTables

/-- Uniqueness of the primary key `id` across the rows of the
`scd_operations` table. -/
def uniqueIDs (tbl : List OperationalIntentRow) : Prop :=
  tbl.Pairwise (fun a b => a.id ≠ b.id)

/-! ### Concrete fixtures used by the witness theorems -/

/-- A stored Operational Intent row. -/
def sampleRow : OperationalIntentRow :=
  { id := "op-1", owner := "uss-a", version := 1,
    url := "https://uss-a.example/op",
    altitude_lower := some 0, altitude_upper := some 500,
    starts_at := some 0, ends_at := some 100,
    subscription_id := some "sub-1", updated_at := 10, state := "Accepted",
    cells := [5, 6] }

/-- A second row with the same id, for the multi-row fetch case. -/
def sampleRow2 : OperationalIntentRow :=
  { sampleRow with owner := "uss-b" }

/-- An update of the entity stored as `sampleRow`. -/
def sampleIntent : OperationalIntent :=
  { id := "op-1", manager := "uss-a", version := 2,
    ussBaseURL := "https://uss-a.example/op",
    altitudeLower := some 0, altitudeUpper := some 500,
    startTime := some 0, endTime := some 100,
    subscriptionID := some "sub-1", state := "Activated",
    ovn := NewOVNFromTime 0 "unset", cells := [5, 7] }

/-- A competing update of the same entity. -/
def sampleIntent2 : OperationalIntent :=
  { sampleIntent with manager := "uss-b", version := 3 }

/-- A row with ordered time bounds and one cell, used against the CHECK
constraints of the bootstrapped tables. -/
def sampleEntityRow : EntityRow :=
  { starts_at := some 1, ends_at := some 2, cells := some [5] }

/-- A footprint whose covering is empty. -/
def emptyFootprint : Footprint := { coveringResult := Except.ok [] }

/-- A footprint whose covering misses the cells of `sampleRow`. -/
def missFootprint : Footprint := { coveringResult := Except.ok [900] }

/-- A footprint whose covering shares cell 6 with `sampleRow`. -/
def hitFootprint : Footprint := { coveringResult := Except.ok [6, 200] }

/-- A filter whose covering is empty. -/
def emptyCoverFilter : Volume4D :=
  Volume4D.mk (some (Volume3D.mk (some emptyFootprint) none none)) none none

/-- A filter whose covering misses the cells of `sampleRow`. -/
def missCoverFilter : Volume4D :=
  Volume4D.mk (some (Volume3D.mk (some missFootprint) none none)) none none

/-- A filter overlapping `sampleRow` in cells, altitude and time; its
window starts exactly at the `ends_at` of `sampleRow` (inclusive
boundary). -/
def hitCoverFilter : Volume4D :=
  Volume4D.mk (some (Volume3D.mk (some hitFootprint) (some 400) (some 600)))
    (some 100) (some 200)

/-! ### Helper lemmas -/

theorem cellOfInt64_int64OfCell (c : Nat) (h : c < 2 ^ 64) :
    cellOfInt64 (int64OfCell c) = c := by
  show ((if c < 2 ^ 63 then (c : Int) else (c : Int) - 2 ^ 64) % (2 ^ 64 : Int)).toNat = c
  rw [show ((2 : Int) ^ 64) = 18446744073709551616 from by norm_num]
  rw [show ((2 : Nat) ^ 63) = 9223372036854775808 from by norm_num]
  have h1 : c < 18446744073709551616 := by omega
  split <;> omega

theorem map_cell_roundtrip (cs : List Nat) (h : ∀ c ∈ cs, c < 2 ^ 64) :
    (cs.map int64OfCell).map cellOfInt64 = cs := by
  induction cs with
  | nil => rfl
  | cons c tl ih =>
    simp only [List.map_cons, List.cons.injEq]
    exact ⟨cellOfInt64_int64OfCell c (h c (List.mem_cons_self c tl)),
      ih (fun x hx => h x (List.mem_cons_of_mem c hx))⟩

theorem find?_eq_head?_of_filter {α : Type} (p : α → Bool) (l : List α) :
    l.find? p = (l.filter p).head? := by
  induction l with
  | nil => rfl
  | cons x xs ih =>
    by_cases h : p x
    · rw [List.find?_cons_of_pos _ h, List.filter_cons_of_pos h]
      rfl
    · rw [List.find?_cons_of_neg _ (by simpa using h),
        List.filter_cons_of_neg (by simpa using h), ih]

theorem filter_id_eq_single {tbl : List OperationalIntentRow}
    {r : OperationalIntentRow} (hu : uniqueIDs tbl) (hr : r ∈ tbl) :
    tbl.filter (fun x => x.id == r.id) = [r] := by
  induction tbl with
  | nil => cases hr
  | cons a tl ih =>
    rcases List.pairwise_cons.mp hu with ⟨ha, htl⟩
    rcases List.mem_cons.mp hr with rfl | hmem
    · rw [List.filter_cons_of_pos (by simp)]
      have hnil : tl.filter (fun x => x.id == r.id) = [] := by
        refine List.filter_eq_nil_iff.mpr (fun x hx => ?_)
        simpa using (ha x hx).symm
      rw [hnil]
    · have hne : (a.id == r.id) = false := by
        simpa using ha r hmem
      rw [List.filter_cons_of_neg (by simp [hne])]
      exact ih htl hmem

theorem find?_id_eq_of_mem {tbl : List OperationalIntentRow}
    {r : OperationalIntentRow} (hu : uniqueIDs tbl) (hr : r ∈ tbl) :
    tbl.find? (fun x => x.id == r.id) = some r := by
  rw [find?_eq_head?_of_filter, filter_id_eq_single hu hr]
  rfl

theorem mem_id_unique {tbl : List OperationalIntentRow}
    {r s : OperationalIntentRow} (hu : uniqueIDs tbl) (hr : r ∈ tbl)
    (hs : s ∈ tbl) (hid : r.id = s.id) : r = s := by
  induction tbl with
  | nil => cases hr
  | cons a tl ih =>
    rcases List.pairwise_cons.mp hu with ⟨ha, htl⟩
    rcases List.mem_cons.mp hr with rfl | hrm
    · rcases List.mem_cons.mp hs with rfl | hsm
      · rfl
      · exact absurd hid (ha s hsm)
    · rcases List.mem_cons.mp hs with rfl | hsm
      · exact absurd hid.symm (ha r hrm)
      · exact ih htl hrm hsm

theorem upsertRowByID_cons_ne {a : OperationalIntentRow}
    {tl : List OperationalIntentRow} {nr : OperationalIntentRow}
    (h : (a.id == nr.id) = false) :
    upsertRowByID (a :: tl) nr = a :: upsertRowByID tl nr := by
  unfold upsertRowByID
  by_cases hany : tl.any (fun r => r.id == nr.id)
  · rw [if_pos (by simp [List.any_cons, hany]), if_pos hany]
    simp only [List.map_cons]
    rw [if_neg (by simp [h])]
  · rw [if_neg (by simp [List.any_cons, h, hany]), if_neg (by simpa using hany)]
    rfl

theorem mem_upsertRowByID {tbl : List OperationalIntentRow}
    {nr x : OperationalIntentRow} (hx : x ∈ upsertRowByID tbl nr) :
    x ∈ tbl ∨ x = nr := by
  unfold upsertRowByID at hx
  split at hx
  · rcases List.mem_map.mp hx with ⟨y, hy, hfy⟩
    by_cases h : (y.id == nr.id) = true
    · right
      rw [if_pos h] at hfy
      exact hfy.symm
    · left
      rw [if_neg h] at hfy
      exact hfy ▸ hy
  · rcases List.mem_append.mp hx with h | h
    · exact Or.inl h
    · exact Or.inr (List.mem_singleton.mp h)

theorem uniqueIDs_upsertRowByID {tbl : List OperationalIntentRow}
    (nr : OperationalIntentRow) (hu : uniqueIDs tbl) :
    uniqueIDs (upsertRowByID tbl nr) := by
  induction tbl with
  | nil =>
    unfold upsertRowByID
    simp [uniqueIDs]
  | cons a tl ih =>
    rcases List.pairwise_cons.mp hu with ⟨ha, htl⟩
    by_cases h : (a.id == nr.id) = true
    · unfold upsertRowByID
      rw [if_pos (by simp [List.any_cons, h])]
      have hmap : tl.map (fun r => if r.id == nr.id then nr else r) = tl := by
        refine List.map_congr_left (fun x hx => ?_) |>.trans (List.map_id tl)
        have : (x.id == nr.id) = false := by
          have hax : a.id ≠ x.id := ha x hx
          have : a.id = nr.id := by simpa using h
          simpa using fun hxe => hax (this ▸ hxe.symm)
        simp [this]
      simp only [List.map_cons, if_pos h, hmap]
      refine List.pairwise_cons.mpr ⟨fun x hx => ?_, htl⟩
      have : a.id = nr.id := by simpa using h
      exact this ▸ ha x hx
    · rw [upsertRowByID_cons_ne (by simpa using h)]
      refine List.pairwise_cons.mpr ⟨fun x hx => ?_, ih htl⟩
      rcases mem_upsertRowByID hx with hxm | rfl
      · exact ha x hxm
      · simpa using h

theorem filter_upsertRowByID {tbl : List OperationalIntentRow}
    (nr : OperationalIntentRow) (hu : uniqueIDs tbl) :
    (upsertRowByID tbl nr).filter (fun x => x.id == nr.id) = [nr] := by
  induction tbl with
  | nil =>
    unfold upsertRowByID
    simp
  | cons a tl ih =>
    rcases List.pairwise_cons.mp hu with ⟨ha, htl⟩
    by_cases h : (a.id == nr.id) = true
    · unfold upsertRowByID
      rw [if_pos (by simp [List.any_cons, h])]
      simp only [List.map_cons, if_pos h]
      rw [List.filter_cons_of_pos (by simp)]
      have hmap : tl.map (fun r => if r.id == nr.id then nr else r) = tl := by
        refine List.map_congr_left (fun x hx => ?_) |>.trans (List.map_id tl)
        have hax : a.id ≠ x.id := ha x hx
        have hanr : a.id = nr.id := by simpa using h
        have : (x.id == nr.id) = false := by
          simpa using fun hxe => hax (hanr ▸ hxe.symm)
        simp [this]
      rw [hmap]
      have hnil : tl.filter (fun x => x.id == nr.id) = [] := by
        refine List.filter_eq_nil_iff.mpr (fun x hx => ?_)
        have hax : a.id ≠ x.id := ha x hx
        have hanr : a.id = nr.id := by simpa using h
        simpa using fun hxe => hax (hanr ▸ hxe.symm)
      rw [hnil]
    · rw [upsertRowByID_cons_ne (by simpa using h)]
      rw [List.filter_cons_of_neg (by simpa using h)]
      exact ih htl

theorem self_mem_upsertRowByID (tbl : List OperationalIntentRow)
    (nr : OperationalIntentRow) : nr ∈ upsertRowByID tbl nr := by
  induction tbl with
  | nil =>
    unfold upsertRowByID
    simp
  | cons a tl ih =>
    by_cases h : (a.id == nr.id) = true
    · unfold upsertRowByID
      rw [if_pos (by simp [List.any_cons, h])]
      simp only [List.map_cons, if_pos h]
      exact List.mem_cons_self _ _
    · rw [upsertRowByID_cons_ne (by simpa using h)]
      exact List.mem_cons_of_mem a ih

theorem id_rows_upsertRowByID {tbl : List OperationalIntentRow}
    {nr row : OperationalIntentRow} (hrow : row ∈ upsertRowByID tbl nr)
    (hid : row.id = nr.id) : row = nr := by
  unfold upsertRowByID at hrow
  split at hrow
  · rcases List.mem_map.mp hrow with ⟨y, hy, hfy⟩
    by_cases h : (y.id == nr.id) = true
    · rw [if_pos h] at hfy
      exact hfy.symm
    · rw [if_neg h] at hfy
      exact absurd (hfy ▸ hid) (by simpa using h)
  · rcases List.mem_append.mp hrow with h | h
    · next hany =>
      exfalso
      have hp : (row.id == nr.id) = true := by
        rw [hid]
        exact beq_self_eq_true nr.id
      exact hany (List.any_eq_true.mpr ⟨row, h, hp⟩)
    · exact List.mem_singleton.mp h

theorem createTableIfNotExists_of_present {schema : List TableDef} {t : TableDef}
    (h : (schema.any (fun u => u.name == t.name)) = true) :
    createTableIfNotExists schema t = schema := if_pos h

theorem any_name_createTableIfNotExists (schema : List TableDef) (t t2 : TableDef)
    (h : (schema.any (fun u => u.name == t.name)) = true) :
    ((createTableIfNotExists schema t2).any (fun u => u.name == t.name)) = true := by
  unfold createTableIfNotExists
  split
  · exact h
  · simp [List.any_append, h]

theorem any_name_self (schema : List TableDef) (t : TableDef) :
    ((createTableIfNotExists schema t).any (fun u => u.name == t.name)) = true := by
  unfold createTableIfNotExists
  split
  · next h => exact h
  · simp [List.any_append]

theorem cellsOverlap_iff (cells cids : List Int) :
    cellsOverlap cells cids = true ↔ ∃ x ∈ cells, x ∈ cids := by
  simp [cellsOverlap, List.any_eq_true, List.elem_iff]

theorem coalesceGeTrue_some_iff (a : Option Int) (b : Int) :
    coalesceGeTrue a (some b) = true ↔ (a = none ∨ ∃ x, a = some x ∧ b ≤ x) := by
  rcases a with _ | x <;> simp [coalesceGeTrue]

theorem coalesceLeTrue_some_iff (a : Option Int) (b : Int) :
    coalesceLeTrue a (some b) = true ↔ (a = none ∨ ∃ x, a = some x ∧ x ≤ b) := by
  rcases a with _ | x <;> simp [coalesceLeTrue]

theorem searchRowMatches_iff (cids : List Int) (aLo aHi ts te : Int)
    (r : OperationalIntentRow) :
    searchRowMatches cids (some aLo) (some aHi) (some ts) (some te) r = true ↔
      ((∃ x ∈ r.cells, x ∈ cids) ∧
       (r.altitude_upper = none ∨ ∃ u, r.altitude_upper = some u ∧ aLo ≤ u) ∧
       (r.altitude_lower = none ∨ ∃ l, r.altitude_lower = some l ∧ l ≤ aHi) ∧
       (r.ends_at = none ∨ ∃ tE, r.ends_at = some tE ∧ ts ≤ tE) ∧
       (r.starts_at = none ∨ ∃ tS, r.starts_at = some tS ∧ tS ≤ te)) := by
  simp only [searchRowMatches, Bool.and_eq_true, cellsOverlap_iff,
    coalesceGeTrue_some_iff, coalesceLeTrue_some_iff, and_assoc]

theorem fetchOperationalIntent_singleton (tbl : List OperationalIntentRow)
    (r : OperationalIntentRow) :
    fetchOperationalIntent tbl [r] = Except.ok (some
      { scanRow r with cells := populateOperationalIntentCells tbl r.id }) := rfl

theorem searchOperationalIntents_cov_ok (tbl : List OperationalIntentRow)
    (fp : Footprint) (aLo aHi ts te : Option Int) (c : Nat) (cs : List Nat)
    (hcov : calculateCovering fp = Except.ok (c :: cs)) :
    searchOperationalIntents tbl
      (Volume4D.mk (some (Volume3D.mk (some fp) aLo aHi)) ts te)
      = Except.ok (fetchOperationalIntents tbl
          (tbl.filter (searchRowMatches ((c :: cs).map int64OfCell)
            aLo aHi ts te))) := by
  unfold searchOperationalIntents
  simp only [calculateCovering] at hcov
  simp [calculateCovering, hcov]

theorem searchOperationalIntents_cov_empty (tbl : List OperationalIntentRow)
    (fp : Footprint) (aLo aHi ts te : Option Int)
    (hcov : ∀ c cs, calculateCovering fp ≠ Except.ok (c :: cs)) :
    ∃ e, searchOperationalIntents tbl
      (Volume4D.mk (some (Volume3D.mk (some fp) aLo aHi)) ts te)
      = Except.error e := by
  unfold searchOperationalIntents
  rcases hr : calculateCovering fp with msg | (_ | ⟨c, cs⟩)
  · simp only [calculateCovering] at hr
    exact ⟨SearchError.coveringFailure msg, by simp [calculateCovering, hr]⟩
  · simp only [calculateCovering] at hr
    exact ⟨SearchError.missingCellIDs, by simp [calculateCovering, hr]⟩
  · exact absurd hr (hcov c cs)

theorem upsertOperationalIntent_eq (tbl : List OperationalIntentRow)
    (operation : OperationalIntent) (txTimestamp : Int) :
    UpsertOperationalIntent tbl operation txTimestamp =
      Except.ok (upsertRowByID tbl (upsertNewRow operation txTimestamp),
        { scanRow (upsertNewRow operation txTimestamp) with cells := operation.cells }) := rfl

/-! ### Claim theorems -/

/-- C3: the claim requires that a panic raised inside a transactional scope
both rolls the transaction back and still propagates to the caller. The
source rolls back but swallows the fault: `recoverRollbackRepanic` recovers
the panic and returns normally — it contains no `panic(p)` after the
rollback, despite its own name promising a re-panic. Evaluated at the
failing input (the scoped function panics, here with value 42), the scope
ends rolled back with no propagated fault, contradicting the propagation
half of the claim. -/
theorem C3_panic_rolled_back_but_swallowed :
    runInTxScope (FnOutcome.panics 42) = (TxStatus.rolledBack, none) := rfl

/-- C10: for an id with no stored row, `GetOperationalIntent` returns a nil
entity together with a nil error — absence is signalled by the missing
result, not by an error value — while a fetch whose query matches more than
one row for a single id returns an error. -/
theorem C10_get_absent_nil_nil (tbl : List OperationalIntentRow) (id : String) :
    ((∀ r ∈ tbl, r.id ≠ id) → GetOperationalIntent tbl id = Except.ok none) ∧
    (∀ id2 : String, 1 < (rowsMatchingID tbl id2).length →
      ∃ msg, GetOperationalIntent tbl id2 = Except.error msg) := by
  constructor
  · intro h
    have hnil : rowsMatchingID tbl id = [] := by
      refine List.filter_eq_nil_iff.mpr (fun r hr => ?_)
      simpa using h r hr
    simp [GetOperationalIntent, fetchOperationByID, fetchOperationalIntent,
      fetchOperationalIntents, hnil]
  · intro id2 hlen
    refine ⟨"Query returned more than one Operation when only 0 or 1 was expected", ?_⟩
    have hlen2 : 1 < (fetchOperationalIntents tbl (rowsMatchingID tbl id2)).length := by
      simpa [fetchOperationalIntents] using hlen
    simp [GetOperationalIntent, fetchOperationByID, fetchOperationalIntent, hlen2]

/-- C10 witness: the empty table yields `ok none` for any id, and a table
carrying two rows with the same id makes the single-row fetch error. -/
theorem C10_witness :
    GetOperationalIntent [] "op-1" = Except.ok none ∧
    ∃ msg, GetOperationalIntent [sampleRow, sampleRow2] "op-1" = Except.error msg := by
  constructor
  · exact (C10_get_absent_nil_nil [] "op-1").1 (by simp)
  · exact (C10_get_absent_nil_nil [sampleRow, sampleRow2] "op-1").2 "op-1" (by decide)

/-- C5: deleting a nonexistent id fails with the not-found error — no silent
no-op, nothing created, the table unchanged — and the repeated attempt fails
identically; the delete succeeds exactly when a row with that id existed,
and the resulting table is the old one with precisely the rows carrying
that id removed. -/
theorem C5_delete_not_found (tbl : List OperationalIntentRow) (id : String) :
    ((∀ r ∈ tbl, r.id ≠ id) →
      (DeleteOperationalIntent tbl id).2 = some deleteNotFoundMsg ∧
      (DeleteOperationalIntent tbl id).1 = tbl ∧
      (DeleteOperationalIntent (DeleteOperationalIntent tbl id).1 id).2
        = some deleteNotFoundMsg) ∧
    ((DeleteOperationalIntent tbl id).2 = none ↔ ∃ r ∈ tbl, r.id = id) ∧
    (DeleteOperationalIntent tbl id).1 = tbl.filter (fun r => !(r.id == id)) := by
  have hfst : ∀ t : List OperationalIntentRow,
      (DeleteOperationalIntent t id).1 = t.filter (fun r => !(r.id == id)) := by
    intro t
    unfold DeleteOperationalIntent
    dsimp only
    split <;> rfl
  have hsnd : ∀ t : List OperationalIntentRow,
      ((DeleteOperationalIntent t id).2 = none ↔ ∃ r ∈ t, r.id = id) := by
    intro t
    unfold DeleteOperationalIntent
    dsimp only
    by_cases hex : ∃ r ∈ t, r.id = id
    · obtain ⟨r, hr, hrid⟩ := hex
      have hmem : r ∈ t.filter (fun x => x.id == id) :=
        List.mem_filter.mpr ⟨hr, by simp [hrid]⟩
      have : (t.filter (fun x => x.id == id)).length ≠ 0 := by
        intro h0
        rw [List.length_eq_zero] at h0
        rw [h0] at hmem
        cases hmem
      rw [if_neg (by simpa using this)]
      simp only [true_iff]
      exact ⟨r, hr, hrid⟩
    · have hnil : t.filter (fun x => x.id == id) = [] := by
        refine List.filter_eq_nil_iff.mpr (fun x hx hpx => ?_)
        exact hex ⟨x, hx, by simpa using hpx⟩
      rw [if_pos (by simp [hnil])]
      simp only [reduceCtorEq, false_iff]
      exact hex
  refine ⟨?_, hsnd tbl, hfst tbl⟩
  intro h
  have hself : tbl.filter (fun r => !(r.id == id)) = tbl := by
    refine List.filter_eq_self.mpr (fun r hr => ?_)
    simp [h r hr]
  have herr : (DeleteOperationalIntent tbl id).2 = some deleteNotFoundMsg := by
    unfold DeleteOperationalIntent
    dsimp only
    rw [if_pos]
    have : tbl.filter (fun x => x.id == id) = [] := by
      refine List.filter_eq_nil_iff.mpr (fun x hx hpx => ?_)
      exact h x hx (by simpa using hpx)
    simp [this]
  refine ⟨herr, by rw [hfst tbl, hself], ?_⟩
  rw [hfst tbl, hself]
  exact herr

/-- C5 witness: deleting an absent id from a one-row table errors, deleting
the present id succeeds. -/
theorem C5_witness :
    (DeleteOperationalIntent [sampleRow] "absent").2 = some deleteNotFoundMsg ∧
    (DeleteOperationalIntent [sampleRow] "op-1").2 = none := by
  refine ⟨((C5_delete_not_found [sampleRow] "absent").1 (by decide)).1, ?_⟩
  exact ((C5_delete_not_found [sampleRow] "op-1").2.1).mpr ⟨sampleRow, by simp, rfl⟩

/-- C9: for every stored row, the cell set produced by the core row fetch
(the scan of the `cells` column through SetCells) equals the cell set the
secondary unnested query path yields for the same row. -/
theorem C9_cell_paths_agree (tbl : List OperationalIntentRow)
    (r : OperationalIntentRow) (hu : uniqueIDs tbl) (hr : r ∈ tbl) :
    (scanRow r).cells = populateOperationalIntentCells tbl r.id := by
  show setCells r.cells = _
  unfold populateOperationalIntentCells setCells
  rw [filter_id_eq_single hu hr]
  simp

/-- C9 witness: the two fetch paths agree on the sample row. -/
theorem C9_witness :
    (scanRow sampleRow).cells
      = populateOperationalIntentCells [sampleRow] sampleRow.id :=
  C9_cell_paths_agree [sampleRow] sampleRow (by simp [uniqueIDs]) (by simp)

/-- C8: the OVN is derived at read time as a deterministic function of the
stored (updated_at, id): every fetched entity carries exactly
`NewOVNFromTime updated_at id`, so two fetches of the same unmutated row
yield the same OVN; distinct update timestamps for an id yield distinct
OVNs, so a successful mutation (which rewrites updated_at with the
transaction timestamp) changes the OVN; and the OVN is never stored — the
committed table of an upsert does not depend on the ovn carried by the
input entity. -/
theorem C8_ovn_derived_not_stored (t t2 : Int) (id : String) (ht : t ≠ t2) :
    (∀ tbl selected : List OperationalIntentRow,
      (fetchOperationalIntents tbl selected).map (fun e => e.ovn)
        = selected.map (fun r => NewOVNFromTime r.updated_at r.id)) ∧
    NewOVNFromTime t id ≠ NewOVNFromTime t2 id ∧
    (∀ (tbl : List OperationalIntentRow) (op : OperationalIntent) (v : OVN)
      (ts : Int),
      (UpsertOperationalIntent tbl { op with ovn := v } ts).map Prod.fst
        = (UpsertOperationalIntent tbl op ts).map Prod.fst) := by
  refine ⟨?_, ?_, ?_⟩
  · intro tbl selected
    simp [fetchOperationalIntents, scanRow]
  · simp only [NewOVNFromTime, ne_eq, OVN.mk.injEq, not_and]
    exact fun h => absurd h ht
  · intro tbl op v ts
    rfl

/-- C8 witness: two distinct timestamps give distinct OVNs for the same id. -/
theorem C8_witness : NewOVNFromTime 10 "op-1" ≠ NewOVNFromTime 11 "op-1" :=
  (C8_ovn_derived_not_stored 10 11 "op-1" (by decide)).2.1

/-- C6: every upsert commits a row whose updated_at is the storage engine
transaction timestamp — every committed row carrying the entity id has it,
and the input entity carries no timestamp to take — and returns the entity
as committed: all scanned columns equal the written row, the cells are the
input covering merged back (not re-derived), and the OVN is freshly derived
from the transaction timestamp and the id. -/
theorem C6_upsert_server_timestamp (tbl : List OperationalIntentRow)
    (op : OperationalIntent) (ts : Int) :
    ∃ tbl2 ret, UpsertOperationalIntent tbl op ts = Except.ok (tbl2, ret) ∧
      upsertNewRow op ts ∈ tbl2 ∧
      (∀ row ∈ tbl2, row.id = op.id → row.updated_at = ts) ∧
      ret.cells = op.cells ∧
      ret.ovn = NewOVNFromTime ts op.id ∧
      ret.id = op.id ∧ ret.manager = op.manager ∧ ret.version = op.version ∧
      ret.ussBaseURL = op.ussBaseURL ∧ ret.altitudeLower = op.altitudeLower ∧
      ret.altitudeUpper = op.altitudeUpper ∧ ret.startTime = op.startTime ∧
      ret.endTime = op.endTime ∧ ret.subscriptionID = op.subscriptionID ∧
      ret.state = op.state := by
  refine ⟨upsertRowByID tbl (upsertNewRow op ts),
    { scanRow (upsertNewRow op ts) with cells := op.cells },
    upsertOperationalIntent_eq tbl op ts, self_mem_upsertRowByID tbl _, ?_,
    rfl, rfl, rfl, rfl, rfl, rfl, rfl, rfl, rfl, rfl, rfl, rfl⟩
  intro row hrow hid
  have : row = upsertNewRow op ts := id_rows_upsertRowByID hrow hid
  rw [this]
  rfl

/-- C6 witness: upserting the sample update at transaction timestamp 20
returns the entity with the freshly derived OVN and the input cells. -/
theorem C6_witness :
    ∃ tbl2 ret, UpsertOperationalIntent [sampleRow] sampleIntent 20
        = Except.ok (tbl2, ret) ∧
      ret.cells = sampleIntent.cells ∧
      ret.ovn = NewOVNFromTime 20 sampleIntent.id := by
  obtain ⟨tbl2, ret, heq, -, -, hcell, hovn, -⟩ :=
    C6_upsert_server_timestamp [sampleRow] sampleIntent 20
  exact ⟨tbl2, ret, heq, hcell, hovn⟩

/-- C4 counterexample: bootstrapping an empty schema creates exactly two row
stores — `subscriptions` and `identification_service_areas` — and none for
Operational Intents, refuting the claimed three. -/
theorem C4_counterexample :
    (Bootstrap []).map TableDef.name
      = ["subscriptions", "identification_service_areas"] ∧
    (Bootstrap []).length ≠ 3 := by
  exact ⟨rfl, by decide⟩

/-- C4 amended: Bootstrap creates, if absent, two row stores (Subscription
and ISA), each with a non-null `cells` column whose CHECK rejects an empty
cell array and a row-level CHECK enforcing starts_at < ends_at whenever
both bounds are present; bootstrapping an already-bootstrapped schema
changes nothing (and the operation is total, so it never fails). -/
theorem C4_bootstrap_idempotent (schema : List TableDef) :
    Bootstrap (Bootstrap schema) = Bootstrap schema ∧
    ∀ t ∈ Bootstrap [],
      (∃ c ∈ t.columns, c.name = "cells" ∧ c.notNull = true) ∧
      ∀ r : EntityRow, (∀ chk ∈ t.checks, checkPasses (chk r) = true) →
        (∃ x xs, r.cells = some (x :: xs)) ∧
        ∀ a b, r.starts_at = some a → r.ends_at = some b → a < b := by
  constructor
  · show List.foldl createTableIfNotExists (Bootstrap schema) bootstrapTables
      = Bootstrap schema
    have hsub : ((Bootstrap schema).any
        (fun u => u.name == subscriptionsTable.name)) = true := by
      show ((createTableIfNotExists (createTableIfNotExists schema subscriptionsTable)
        identificationServiceAreasTable).any
          (fun u => u.name == subscriptionsTable.name)) = true
      exact any_name_createTableIfNotExists _ subscriptionsTable
        identificationServiceAreasTable (any_name_self schema subscriptionsTable)
    have hisa : ((Bootstrap schema).any
        (fun u => u.name == identificationServiceAreasTable.name)) = true :=
      any_name_self (createTableIfNotExists schema subscriptionsTable)
        identificationServiceAreasTable
    show createTableIfNotExists
      (createTableIfNotExists (Bootstrap schema) subscriptionsTable)
      identificationServiceAreasTable = Bootstrap schema
    rw [createTableIfNotExists_of_present hsub,
      createTableIfNotExists_of_present hisa]
  · intro t ht
    have hB : Bootstrap []
        = [subscriptionsTable, identificationServiceAreasTable] := rfl
    rw [hB] at ht
    have hcells : ∀ r : EntityRow, r.cells = none ∨ r.cells = some [] →
        checkPasses (subscriptionsCellsCheck r) = false ∧
        checkPasses (isaCellsCheck r) = false := by
      intro r hr
      rcases hr with h | h <;>
        simp [subscriptionsCellsCheck, isaCellsCheck, arrayLength, sqlGt,
          sqlIsNotNull, SqlBool.and3, checkPasses, h]
    have htime : ∀ r : EntityRow, checkPasses (timeOrderCheck r) = true →
        ∀ a b, r.starts_at = some a → r.ends_at = some b → a < b := by
      intro r hchk a b ha hb
      by_cases hab : a < b
      · exact hab
      · exfalso
        simp [timeOrderCheck, sqlIsNull, sqlLt, SqlBool.or3, checkPasses,
          ha, hb, hab] at hchk
    have hnonempty : ∀ r : EntityRow,
        (checkPasses (subscriptionsCellsCheck r) = true ∨
         checkPasses (isaCellsCheck r) = true) →
        ∃ x xs, r.cells = some (x :: xs) := by
      intro r hr
      rcases hc : r.cells with _ | (_ | ⟨x, xs⟩)
      · exfalso
        rcases hr with h | h
        · rw [(hcells r (Or.inl hc)).1] at h
          exact Bool.noConfusion h
        · rw [(hcells r (Or.inl hc)).2] at h
          exact Bool.noConfusion h
      · exfalso
        rcases hr with h | h
        · rw [(hcells r (Or.inr hc)).1] at h
          exact Bool.noConfusion h
        · rw [(hcells r (Or.inr hc)).2] at h
          exact Bool.noConfusion h
      · exact ⟨x, xs, rfl⟩
    rcases List.mem_cons.mp ht with rfl | ht2
    · refine ⟨⟨col "cells" ColType.int64Array false true false, by decide⟩, ?_⟩
      intro r hchk
      have h1 := hchk subscriptionsCellsCheck (by simp [subscriptionsTable])
      have h2 := hchk timeOrderCheck (by simp [subscriptionsTable])
      exact ⟨hnonempty r (Or.inl h1), htime r h2⟩
    · rcases List.mem_cons.mp ht2 with rfl | ht3
      · refine ⟨⟨col "cells" ColType.int64Array false true false, by decide⟩, ?_⟩
        intro r hchk
        have h1 := hchk isaCellsCheck (by simp [identificationServiceAreasTable])
        have h2 := hchk timeOrderCheck (by simp [identificationServiceAreasTable])
        exact ⟨hnonempty r (Or.inr h1), htime r h2⟩
      · cases ht3

/-- C4 witness: re-bootstrapping the already-bootstrapped empty schema is a
no-op, and a concrete subscriptions row with cells `[5]` and ordered bounds
passes every CHECK of the created table. -/
theorem C4_witness :
    Bootstrap (Bootstrap []) = Bootstrap [] ∧
    ∃ x xs, sampleEntityRow.cells = some (x :: xs) := by
  refine ⟨(C4_bootstrap_idempotent []).1, ?_⟩
  have hmem : subscriptionsTable ∈ Bootstrap [] := by
    rw [show Bootstrap []
      = [subscriptionsTable, identificationServiceAreasTable] from rfl]
    exact List.mem_cons_self _ _
  refine (((C4_bootstrap_idempotent []).2 subscriptionsTable hmem).2
    sampleEntityRow ?_).1
  intro chk hchk
  rw [show subscriptionsTable.checks
    = [subscriptionsCellsCheck, timeOrderCheck] from rfl] at hchk
  rcases List.mem_cons.mp hchk with rfl | hchk2
  · rfl
  · rcases List.mem_cons.mp hchk2 with rfl | hchk3
    · rfl
    · cases hchk3

/-- C7: search fails — always with an InvalidInput (BadRequest) error —
exactly when the filter carries no footprint or the covering computed for
the footprint yields no cells (the covering fails or comes back empty, two
cases the spec identifies with each other); a well-formed filter whose cell
set matches no stored entity returns the empty list, not an error. -/
theorem C7_search_invalid_input (tbl : List OperationalIntentRow)
    (v4d : Volume4D) :
    ((∃ e, SearchOperationalIntents tbl v4d = Except.error e ∧
        e.isInvalidInput = true) ↔
      (v4d.spatialVolume = none ∨
        ∃ sv, v4d.spatialVolume = some sv ∧
          (sv.footprint = none ∨
            ∃ fp, sv.footprint = some fp ∧
              ∀ c cs, calculateCovering fp ≠ Except.ok (c :: cs)))) ∧
    (∀ sv fp c cs, v4d.spatialVolume = some sv → sv.footprint = some fp →
      calculateCovering fp = Except.ok (c :: cs) →
      (∀ r ∈ tbl, cellsOverlap r.cells ((c :: cs).map int64OfCell) = false) →
      SearchOperationalIntents tbl v4d = Except.ok []) := by
  obtain ⟨osv, ts, te⟩ := v4d
  constructor
  · rcases osv with _ | ⟨ofp, aLo, aHi⟩
    · exact ⟨fun _ => Or.inl rfl,
        fun _ => ⟨SearchError.missingFootprint, rfl, rfl⟩⟩
    · rcases ofp with _ | fp
      · exact ⟨fun _ => Or.inr ⟨_, rfl, Or.inl rfl⟩,
          fun _ => ⟨SearchError.missingFootprint, rfl, rfl⟩⟩
      · by_cases hc : ∀ c cs, calculateCovering fp ≠ Except.ok (c :: cs)
        · constructor
          · intro _
            exact Or.inr ⟨_, rfl, Or.inr ⟨fp, rfl, hc⟩⟩
          · intro _
            obtain ⟨e, he⟩ :=
              searchOperationalIntents_cov_empty tbl fp aLo aHi ts te hc
            exact ⟨e, he, rfl⟩
        · push_neg at hc
          obtain ⟨c, cs, hcov⟩ := hc
          constructor
          · intro hcontra
            exfalso
            obtain ⟨e2, he2, -⟩ := hcontra
            rw [show SearchOperationalIntents tbl
                  (Volume4D.mk (some (Volume3D.mk (some fp) aLo aHi)) ts te)
                = searchOperationalIntents tbl
                  (Volume4D.mk (some (Volume3D.mk (some fp) aLo aHi)) ts te)
              from rfl,
              searchOperationalIntents_cov_ok tbl fp aLo aHi ts te c cs hcov]
              at he2
            exact Except.noConfusion he2
          · intro hcontra
            exfalso
            rcases hcontra with h | ⟨sv, hsv, h⟩
            · exact Option.noConfusion h
            · cases Option.some.inj hsv
              rcases h with h | ⟨fp2, hfp2, hne⟩
              · exact Option.noConfusion h
              · cases Option.some.inj hfp2
                exact hne c cs hcov
  · intro sv fp c cs hsv hfp hcov hno
    obtain rfl : osv = some sv := hsv
    obtain ⟨ofp, aLo, aHi⟩ := sv
    obtain rfl : ofp = some fp := hfp
    show searchOperationalIntents _ _ = _
    rw [searchOperationalIntents_cov_ok tbl fp aLo aHi ts te c cs hcov]
    have hnil : tbl.filter (searchRowMatches ((c :: cs).map int64OfCell)
        aLo aHi ts te) = [] := by
      refine List.filter_eq_nil_iff.mpr (fun r hr hp => ?_)
      unfold searchRowMatches at hp
      have hover : cellsOverlap r.cells ((c :: cs).map int64OfCell) = true :=
        ((((Bool.and_eq_true ..).mp
          ((Bool.and_eq_true ..).mp
            ((Bool.and_eq_true ..).mp
              ((Bool.and_eq_true ..).mp hp).1).1).1).1))
      rw [hno r hr] at hover
      exact Bool.noConfusion hover
    rw [hnil]
    rfl

/-- C7 witness: on a one-row table, a filter whose covering comes back empty
is rejected with an InvalidInput error, and a well-formed filter whose
covering misses the stored cells returns the empty list. -/
theorem C7_witness :
    (∃ e, SearchOperationalIntents [sampleRow] emptyCoverFilter
        = Except.error e ∧ e.isInvalidInput = true) ∧
    SearchOperationalIntents [sampleRow] missCoverFilter = Except.ok [] := by
  constructor
  · refine (C7_search_invalid_input [sampleRow] emptyCoverFilter).1.mpr
      (Or.inr ⟨_, rfl, Or.inr ⟨emptyFootprint, rfl, ?_⟩⟩)
    intro c cs h
    rw [show calculateCovering emptyFootprint = Except.ok [] from rfl] at h
    simp at h
  · exact (C7_search_invalid_input [sampleRow] missCoverFilter).2
      _ missFootprint 900 [] rfl rfl rfl (by decide)

/-- C2: under a valid non-empty filter cell set (and a fully-bounded
filter), an entity is returned by search exactly when its cells intersect
the filter cells, its altitude range meets the filter range on both
optional bounds, and its time window meets the filter window on both
optional bounds — all comparisons inclusive, so a row with ends_at = T is
matched by a filter whose window starts exactly at T. -/
theorem C2_search_matching (tbl : List OperationalIntentRow)
    (hu : uniqueIDs tbl) (fp : Footprint) (c0 : Nat) (cs : List Nat)
    (hcov : calculateCovering fp = Except.ok (c0 :: cs))
    (aLo aHi ts te : Int) (r : OperationalIntentRow) (hr : r ∈ tbl) :
    ∃ res,
      SearchOperationalIntents tbl
        (Volume4D.mk (some (Volume3D.mk (some fp) (some aLo) (some aHi)))
          (some ts) (some te)) = Except.ok res ∧
      ((∃ e ∈ res, e.id = r.id) ↔
        ((∃ x ∈ r.cells, x ∈ (c0 :: cs).map int64OfCell) ∧
         (r.altitude_upper = none ∨ ∃ u, r.altitude_upper = some u ∧ aLo ≤ u) ∧
         (r.altitude_lower = none ∨ ∃ l, r.altitude_lower = some l ∧ l ≤ aHi) ∧
         (r.ends_at = none ∨ ∃ tE, r.ends_at = some tE ∧ ts ≤ tE) ∧
         (r.starts_at = none ∨ ∃ tS, r.starts_at = some tS ∧ tS ≤ te))) := by
  refine ⟨_, show SearchOperationalIntents _ _ = _ from
    searchOperationalIntents_cov_ok tbl fp (some aLo) (some aHi) (some ts)
      (some te) c0 cs hcov, ?_⟩
  rw [← searchRowMatches_iff ((c0 :: cs).map int64OfCell) aLo aHi ts te r]
  unfold fetchOperationalIntents
  constructor
  · rintro ⟨e, he, hid⟩
    rcases List.mem_map.mp he with ⟨r2, hr2, rfl⟩
    have hr2f := List.mem_filter.mp hr2
    have hre : r2 = r := mem_id_unique hu hr2f.1 hr hid
    exact hre ▸ hr2f.2
  · intro hmatch
    exact ⟨_, List.mem_map.mpr ⟨r, List.mem_filter.mpr ⟨hr, hmatch⟩, rfl⟩, rfl⟩

/-- C2 witness: `sampleRow` (cells `[5, 6]`, altitudes `[0, 500]`, time
window `[0, 100]`) is returned by `hitCoverFilter` (cells `{6, 200}`,
altitudes `[400, 600]`, window starting exactly at 100 — the inclusive
boundary case). -/
theorem C2_witness :
    ∃ res, SearchOperationalIntents [sampleRow] hitCoverFilter
        = Except.ok res ∧ ∃ e ∈ res, e.id = sampleRow.id := by
  obtain ⟨res, hres, hiff⟩ := C2_search_matching [sampleRow]
    (by simp [uniqueIDs]) hitFootprint 6 [200] rfl 400 600 100 200 sampleRow
    (by simp)
  exact ⟨res, hres, hiff.mpr (by decide)⟩

/-- C1: the version-token fence on upsert: a supplied token that does not
validate against the current stored row fails with VersionConflict and
leaves the table unchanged; a supplied token when no row with that id
exists ("update of nonexistent") fails the same way; and when two updates
race presenting the same token T0 derived from the current row, at most one
succeeds — once the first commits (at a fresh transaction timestamp), the
other fails with VersionConflict against the committed state, and a
subsequent get returns exactly the successful update. -/
theorem C1_version_conflict (tbl : List OperationalIntentRow)
    (row : OperationalIntentRow) (op1 op2 : OperationalIntent)
    (ts1 ts2 : Int) (hu : uniqueIDs tbl) (hrow : row ∈ tbl)
    (h1 : op1.id = row.id) (h2 : op2.id = row.id)
    (hcells : ∀ c ∈ op1.cells, c < 2 ^ 64)
    (hfresh : ts1 ≠ row.updated_at) :
    (∀ t, validateOVN t row.updated_at row.id = false →
      upsertWithVersionCheck tbl op1 (some t) ts1
        = (tbl, Except.error UpsertFailure.versionConflict)) ∧
    (∀ (op : OperationalIntent) (ts : Int) (t : OVN),
      (∀ x ∈ tbl, x.id ≠ op.id) →
      upsertWithVersionCheck tbl op (some t) ts
        = (tbl, Except.error UpsertFailure.versionConflict)) ∧
    (∀ tbl2 ret,
      upsertWithVersionCheck tbl op1
          (some (NewOVNFromTime row.updated_at row.id)) ts1
        = (tbl2, Except.ok ret) →
      upsertWithVersionCheck tbl2 op2
          (some (NewOVNFromTime row.updated_at row.id)) ts2
        = (tbl2, Except.error UpsertFailure.versionConflict) ∧
      GetOperationalIntent tbl2 op1.id = Except.ok (some ret)) := by
  have hfind : tbl.find? (fun x => x.id == op1.id) = some row := by
    rw [show (fun x : OperationalIntentRow => x.id == op1.id)
      = (fun x => x.id == row.id) from by funext x; rw [h1]]
    exact find?_id_eq_of_mem hu hrow
  refine ⟨?_, ?_, ?_⟩
  · intro t hval
    unfold upsertWithVersionCheck
    rw [hfind]
    simp [hval]
  · intro op ts t hnone
    unfold upsertWithVersionCheck
    have hn : tbl.find? (fun x => x.id == op.id) = none :=
      List.find?_eq_none.mpr (fun x hx => by simpa using hnone x hx)
    rw [hn]
  · intro tbl2 ret hok
    have hval1 : validateOVN (NewOVNFromTime row.updated_at row.id)
        row.updated_at row.id = true := by
      simp [validateOVN]
    have hstep : upsertWithVersionCheck tbl op1
        (some (NewOVNFromTime row.updated_at row.id)) ts1
        = (upsertRowByID tbl (upsertNewRow op1 ts1),
           Except.ok { scanRow (upsertNewRow op1 ts1) with
             cells := op1.cells }) := by
      unfold upsertWithVersionCheck
      rw [hfind]
      dsimp only
      rw [if_pos hval1, upsertOperationalIntent_eq]
    rw [hstep] at hok
    injection hok with hok1 hok2
    injection hok2 with hok3
    subst hok1
    subst hok3
    constructor
    · unfold upsertWithVersionCheck
      have hfind2 : (upsertRowByID tbl (upsertNewRow op1 ts1)).find?
          (fun x => x.id == op2.id) = some (upsertNewRow op1 ts1) := by
        rw [show (fun x : OperationalIntentRow => x.id == op2.id)
          = (fun x => x.id == (upsertNewRow op1 ts1).id) from by
            funext x
            rw [show (upsertNewRow op1 ts1).id = op1.id from rfl, h1, h2]]
        rw [find?_eq_head?_of_filter, filter_upsertRowByID _ hu]
        rfl
      rw [hfind2]
      have hval2 : validateOVN (NewOVNFromTime row.updated_at row.id)
          (upsertNewRow op1 ts1).updated_at (upsertNewRow op1 ts1).id
          = false := by
        show validateOVN (NewOVNFromTime row.updated_at row.id) ts1 op1.id
          = false
        simp only [validateOVN, decide_eq_false_iff_not]
        intro hcon
        exact hfresh (congrArg OVN.fromTime hcon).symm
      simp [hval2]
    · have hfil : (upsertRowByID tbl (upsertNewRow op1 ts1)).filter
          (fun x => x.id == op1.id) = [upsertNewRow op1 ts1] := by
        rw [show (fun x : OperationalIntentRow => x.id == op1.id)
          = (fun x => x.id == (upsertNewRow op1 ts1).id) from rfl]
        exact filter_upsertRowByID _ hu
      have hpop : populateOperationalIntentCells
          (upsertRowByID tbl (upsertNewRow op1 ts1))
          (upsertNewRow op1 ts1).id = op1.cells := by
        unfold populateOperationalIntentCells
        rw [filter_upsertRowByID _ hu]
        simp only [List.flatMap_cons, List.flatMap_nil, List.append_nil]
        exact map_cell_roundtrip op1.cells hcells
      unfold GetOperationalIntent fetchOperationByID rowsMatchingID
      rw [hfil, fetchOperationalIntent_singleton, hpop]

/-- C1 witness: on the one-row table, the update presenting the current
token T0 at transaction timestamp 20 succeeds, the competing update
presenting the same T0 then fails with VersionConflict, and the get returns
exactly the committed update. -/
theorem C1_witness :
    ∃ tbl2 ret,
      upsertWithVersionCheck [sampleRow] sampleIntent
        (some (NewOVNFromTime 10 "op-1")) 20 = (tbl2, Except.ok ret) ∧
      upsertWithVersionCheck tbl2 sampleIntent2
        (some (NewOVNFromTime 10 "op-1")) 21
        = (tbl2, Except.error UpsertFailure.versionConflict) ∧
      GetOperationalIntent tbl2 sampleIntent.id = Except.ok (some ret) := by
  obtain ⟨-, -, h3⟩ := C1_version_conflict [sampleRow] sampleRow
    sampleIntent sampleIntent2 20 21 (by simp [uniqueIDs]) (by simp)
    rfl rfl (by decide) (by decide)
  obtain ⟨hconf, hget⟩ := h3 _ _ rfl
  exact ⟨_, _, rfl, hconf, hget⟩

end DSS
